import Mathlib

/- Shallow embedding of the apex-stack core: a backend exposing CRUD and
   workflow operations over Users and Todos, with a transactional
   welcome-email job enqueued on user registration.

   Modelling conventions:
   - Uuid values and OffsetDateTime timestamps are modelled as Nat
     (opaque identifiers / instants; only equality and generation matter).
   - The database is an explicit state (DB) threaded through operations.
   - sqlx connectivity failures are not modelled; the failure modes the
     spec reasons about (uniqueness-constraint violation, queue failure)
     are modelled explicitly.
   - The todos table stores the status column as a String, exactly as the
     TodoRow struct in domain/src/todo.rs does; the Todo entity holds the
     decoded TodoStatus. -/

/-- TodoStatus enum from domain/src/todo.rs. -/
inductive TodoStatus where
  | Pending
  | InProgress
  | Completed
deriving DecidableEq

/-- TodoStatus::as_str from domain/src/todo.rs. -/
def TodoStatus.as_str : TodoStatus → String
  | .Pending => "pending"
  | .InProgress => "in_progress"
  | .Completed => "completed"

/-- TodoStatus::from_str from domain/src/todo.rs: a match on the three
storage strings, None otherwise. -/
def TodoStatus.from_str (s : String) : Option TodoStatus :=
  if s = "pending" then some TodoStatus.Pending
  else if s = "in_progress" then some TodoStatus.InProgress
  else if s = "completed" then some TodoStatus.Completed
  else none

/-- User entity from domain/src/user.rs. -/
structure User where
  id : Nat
  email : String
  name : String
  created_at : Nat
  updated_at : Nat
deriving DecidableEq

/-- Raw todo row from the database, from domain/src/todo.rs; the status
column is a raw String. -/
structure TodoRow where
  id : Nat
  user_id : Nat
  title : String
  description : Option String
  status : String
  created_at : Nat
  updated_at : Nat
deriving DecidableEq

/-- Todo entity from domain/src/todo.rs. -/
structure Todo where
  id : Nat
  user_id : Nat
  title : String
  description : Option String
  status : TodoStatus
  created_at : Nat
  updated_at : Nat
deriving DecidableEq

/-- The From TodoRow for Todo conversion in domain/src/todo.rs:
status is decoded with from_str and unwrap_or(Pending). -/
def Todo.ofRow (row : TodoRow) : Todo :=
  { id := row.id
    user_id := row.user_id
    title := row.title
    description := row.description
    status := (TodoStatus.from_str row.status).getD TodoStatus.Pending
    created_at := row.created_at
    updated_at := row.updated_at }

/-- A durable job record in the sqlxmq queue table, as observed through
UserJobs::enqueue_welcome_email in user-feature/src/jobs.rs: a channel
name and the WelcomeEmailArgs payload (user_id, email, name). -/
structure Job where
  channel_name : String
  user_id : Nat
  email : String
  name : String
deriving DecidableEq

/-- The database state: the users and todos tables plus the job queue
table living in the same database (transactional outbox). -/
structure DB where
  users : List User
  todos : List TodoRow
  jobs : List Job
deriving DecidableEq

/-- DomainError from domain/src/error.rs; the Database variant wraps the
underlying sqlx error, modelled by its message string. -/
inductive DomainError where
  | Database (msg : String)
  | NotFound (what : String)
  | Validation (msg : String)
deriving DecidableEq

/-- UserFeatureError from user-feature/src/error.rs. -/
inductive UserFeatureError where
  | Domain (e : DomainError)
  | Queue (msg : String)
  | NotFound (id : Nat)
  | EmailExists (email : String)
deriving DecidableEq

/-- TodoFeatureError from todo-feature/src/error.rs. -/
inductive TodoFeatureError where
  | Domain (e : DomainError)
  | NotFound (id : Nat)
  | UserNotFound (id : Nat)
deriving DecidableEq

instance {ε α : Type} [DecidableEq ε] [DecidableEq α] : DecidableEq (Except ε α) :=
  fun a b =>
    match a, b with
    | Except.ok x, Except.ok y =>
        if h : x = y then isTrue (by rw [h])
        else isFalse (by intro hc; cases hc; exact h rfl)
    | Except.ok _, Except.error _ => isFalse (by intro hc; cases hc)
    | Except.error _, Except.ok _ => isFalse (by intro hc; cases hc)
    | Except.error e, Except.error f =>
        if h : e = f then isTrue (by rw [h])
        else isFalse (by intro hc; cases hc; exact h rfl)

/-- UserRepository::find_by_id from domain/src/user.rs. -/
def UserRepository.find_by_id (db : DB) (id : Nat) : Option User :=
  db.users.find? (fun u => u.id == id)

/-- UserRepository::find_by_email from domain/src/user.rs. -/
def UserRepository.find_by_email (db : DB) (email : String) : Option User :=
  db.users.find? (fun u => u.email == email)

/-- Modelled from the spec: the unique constraint on users.email lives in
the migrations, which are not under src; spec section 4.1 says create
fails with a StorageError on a uniqueness-constraint violation. This is
the error that violation produces. -/
def uniqueViolation : DomainError :=
  DomainError.Database "duplicate key value violates unique constraint on users.email"

/-- UserRepository::create from domain/src/user.rs: inserts a fresh row
with generated id and timestamps. Modelled from the spec for the failure
mode: the insert fails with a storage error when the email is already
present (the unique constraint, enforced by the migrations, which are not
under src). -/
def UserRepository.create (db : DB) (email name : String) (id now : Nat) :
    Except DomainError (User × DB) :=
  if db.users.any (fun u => u.email == email) then
    Except.error uniqueViolation
  else
    let user : User :=
      { id := id, email := email, name := name, created_at := now, updated_at := now }
    Except.ok (user, { db with users := user :: db.users })

/-- UserRepository::update_name from domain/src/user.rs: UPDATE ... WHERE
id = ... RETURNING *; None when no row matched. -/
def UserRepository.update_name (db : DB) (id : Nat) (name : String) (now : Nat) :
    Option User × DB :=
  match db.users.find? (fun u => u.id == id) with
  | none => (none, db)
  | some u =>
      let u' := { u with name := name, updated_at := now }
      (some u', { db with users := db.users.map (fun v => if v.id == id then u' else v) })

/-- UserRepository::delete from domain/src/user.rs: true iff
rows_affected is positive. -/
def UserRepository.delete (db : DB) (id : Nat) : Bool × DB :=
  (db.users.any (fun u => u.id == id),
   { db with users := db.users.filter (fun u => u.id != id) })

/-- UserJobs::enqueue_welcome_email from user-feature/src/jobs.rs: spawn
the send_welcome_email job (channel "emails") with the WelcomeEmailArgs
payload inside the open transaction. -/
def UserJobs.enqueue_welcome_email (db : DB) (user_id : Nat) (email name : String) : DB :=
  { db with
    jobs := { channel_name := "emails", user_id := user_id, email := email, name := name }
              :: db.jobs }

/-- CreateUserInput from user-feature/src/service.rs. -/
structure CreateUserInput where
  email : String
  name : String
deriving DecidableEq

/-- UpdateUserInput from user-feature/src/service.rs. -/
structure UpdateUserInput where
  name : Option String
deriving DecidableEq

/-- The message carried by UserFeatureError::Queue when the enqueue step
fails (the source formats the underlying error with to_string). -/
def queueFailureMsg : String := "queue error"

/-- A user row committed by a concurrent registration between the email
pre-check and the insert of this registration; none in the sequential
case. The service comment in user-feature/src/service.rs names exactly
this race and relies on the database constraint to catch it. -/
def commitRaced (db : DB) (raced : Option User) : DB :=
  match raced with
  | none => db
  | some u => { db with users := u :: db.users }

/-- UserService::register from user-feature/src/service.rs.
Control flow of the source, step by step:
pre-check find_by_email on the pool (the state before the race commits);
on a hit return EmailExists before any write. Otherwise begin a
transaction over the current state (with any raced row now committed),
insert the user row, enqueue the welcome email in the same transaction
(enqueueOk injects the collaborator failure; on failure the Queue error
rolls the transaction back), then commit both together. Rollback is
modelled from the spec: an aborted transaction leaves the
pre-transaction state. -/
def UserService.register (db : DB) (raced : Option User) (input : CreateUserInput)
    (newId now : Nat) (enqueueOk : Bool) :
    Except UserFeatureError User × DB :=
  if (UserRepository.find_by_email db input.email).isSome then
    (Except.error (UserFeatureError.EmailExists input.email), commitRaced db raced)
  else
    let db0 := commitRaced db raced
    match UserRepository.create db0 input.email input.name newId now with
    | Except.error e => (Except.error (UserFeatureError.Domain e), db0)
    | Except.ok (user, db1) =>
        if enqueueOk then
          (Except.ok user, UserJobs.enqueue_welcome_email db1 user.id user.email user.name)
        else
          (Except.error (UserFeatureError.Queue queueFailureMsg), db0)

/-- UserService::get from user-feature/src/service.rs. -/
def UserService.get (db : DB) (id : Nat) : Except UserFeatureError User :=
  match UserRepository.find_by_id db id with
  | some u => Except.ok u
  | none => Except.error (UserFeatureError.NotFound id)

/-- UserService::update from user-feature/src/service.rs: when a name is
provided delegate to update_name (NotFound when no row matched), else
return the current record via get. -/
def UserService.update (db : DB) (id : Nat) (input : UpdateUserInput) (now : Nat) :
    Except UserFeatureError User × DB :=
  match input.name with
  | some name =>
      match UserRepository.update_name db id name now with
      | (some u, db') => (Except.ok u, db')
      | (none, db') => (Except.error (UserFeatureError.NotFound id), db')
  | none => (UserService.get db id, db)

/-- UserService::delete from user-feature/src/service.rs. -/
def UserService.delete (db : DB) (id : Nat) : Bool × DB :=
  UserRepository.delete db id

/-- TodoRepository::create from domain/src/todo.rs: inserts with
generated id and timestamps and status fixed to Pending (the inserted
status value is the string TodoStatus::Pending encodes to). -/
def TodoRepository.create (db : DB) (user_id : Nat) (title : String)
    (description : Option String) (newId now : Nat) : Todo × DB :=
  let row : TodoRow :=
    { id := newId, user_id := user_id, title := title, description := description
      status := TodoStatus.as_str TodoStatus.Pending, created_at := now, updated_at := now }
  (Todo.ofRow row, { db with todos := row :: db.todos })

/-- TodoRepository::find_by_id from domain/src/todo.rs. -/
def TodoRepository.find_by_id (db : DB) (id : Nat) : Option Todo :=
  (db.todos.find? (fun r => r.id == id)).map Todo.ofRow

/-- TodoRepository::update_status from domain/src/todo.rs: set status and
updated_at, RETURNING the updated row, None when no row matched. -/
def TodoRepository.update_status (db : DB) (id : Nat) (status : TodoStatus) (now : Nat) :
    Option Todo × DB :=
  match db.todos.find? (fun r => r.id == id) with
  | none => (none, db)
  | some row =>
      let row' := { row with status := TodoStatus.as_str status, updated_at := now }
      (some (Todo.ofRow row'),
       { db with todos := db.todos.map (fun r => if r.id == id then row' else r) })

/-- TodoRepository::update_content from domain/src/todo.rs: replace title
and description wholesale and refresh updated_at. -/
def TodoRepository.update_content (db : DB) (id : Nat) (title : String)
    (description : Option String) (now : Nat) : Option Todo × DB :=
  match db.todos.find? (fun r => r.id == id) with
  | none => (none, db)
  | some row =>
      let row' := { row with title := title, description := description, updated_at := now }
      (some (Todo.ofRow row'),
       { db with todos := db.todos.map (fun r => if r.id == id then row' else r) })

/-- TodoRepository::delete from domain/src/todo.rs. -/
def TodoRepository.delete (db : DB) (id : Nat) : Bool × DB :=
  (db.todos.any (fun r => r.id == id),
   { db with todos := db.todos.filter (fun r => r.id != id) })

/-- CreateTodoInput from todo-feature/src/service.rs. -/
structure CreateTodoInput where
  user_id : Nat
  title : String
  description : Option String
deriving DecidableEq

/-- UpdateTodoInput from todo-feature/src/service.rs. -/
structure UpdateTodoInput where
  title : Option String
  description : Option String
  status : Option TodoStatus
deriving DecidableEq

/-- TodoService::create from todo-feature/src/service.rs: verify the user
exists, else UserNotFound; then delegate to TodoRepository::create. -/
def TodoService.create (db : DB) (input : CreateTodoInput) (newId now : Nat) :
    Except TodoFeatureError Todo × DB :=
  if (UserRepository.find_by_id db input.user_id).isNone then
    (Except.error (TodoFeatureError.UserNotFound input.user_id), db)
  else
    let res := TodoRepository.create db input.user_id input.title input.description newId now
    (Except.ok res.1, res.2)

/-- TodoService::get from todo-feature/src/service.rs. -/
def TodoService.get (db : DB) (id : Nat) : Except TodoFeatureError Todo :=
  match TodoRepository.find_by_id db id with
  | some t => Except.ok t
  | none => Except.error (TodoFeatureError.NotFound id)

/-- The option fallback input.description.as_deref().or(...) used in
TodoService::update. -/
def orOption (a b : Option String) : Option String :=
  match a with
  | some d => some d
  | none => b

/-- The tail of TodoService::update in todo-feature/src/service.rs after
the status branch: when title or description is provided, merge against
the existing record (title falls back with unwrap_or, description with
or) and delegate to update_content; otherwise return the existing record
with no write. -/
def TodoService.updateContent (db : DB) (id : Nat) (input : UpdateTodoInput)
    (existing : Todo) (now : Nat) : Except TodoFeatureError Todo × DB :=
  if input.title.isSome || input.description.isSome then
    let new_title := input.title.getD existing.title
    let new_description := orOption input.description existing.description
    match TodoRepository.update_content db id new_title new_description now with
    | (some t, db') => (Except.ok t, db')
    | (none, db') => (Except.error (TodoFeatureError.NotFound id), db')
  else
    (Except.ok existing, db)

/-- TodoService::update from todo-feature/src/service.rs: fetch the
existing todo (NotFound when absent); when a status is provided and
differs from the current status apply only the status change and return;
otherwise fall through to the content branch (updateContent above). -/
def TodoService.update (db : DB) (id : Nat) (input : UpdateTodoInput) (now : Nat) :
    Except TodoFeatureError Todo × DB :=
  match TodoRepository.find_by_id db id with
  | none => (Except.error (TodoFeatureError.NotFound id), db)
  | some existing =>
      match input.status with
      | some status =>
          if status ≠ existing.status then
            match TodoRepository.update_status db id status now with
            | (some t, db') => (Except.ok t, db')
            | (none, db') => (Except.error (TodoFeatureError.NotFound id), db')
          else
            TodoService.updateContent db id input existing now
      | none => TodoService.updateContent db id input existing now

/-- TodoService::complete from todo-feature/src/service.rs: unconditional
update_status to Completed. -/
def TodoService.complete (db : DB) (id : Nat) (now : Nat) :
    Except TodoFeatureError Todo × DB :=
  match TodoRepository.update_status db id TodoStatus.Completed now with
  | (some t, db') => (Except.ok t, db')
  | (none, db') => (Except.error (TodoFeatureError.NotFound id), db')

/-- TodoService::start from todo-feature/src/service.rs: unconditional
update_status to InProgress. -/
def TodoService.start (db : DB) (id : Nat) (now : Nat) :
    Except TodoFeatureError Todo × DB :=
  match TodoRepository.update_status db id TodoStatus.InProgress now with
  | (some t, db') => (Except.ok t, db')
  | (none, db') => (Except.error (TodoFeatureError.NotFound id), db')

/-- TodoService::delete from todo-feature/src/service.rs. -/
def TodoService.delete (db : DB) (id : Nat) : Bool × DB :=
  TodoRepository.delete db id

/-- A row with its status column rewritten and updated_at refreshed, the
shape update_status stores. -/
def TodoRow.withStatus (row : TodoRow) (st : TodoStatus) (now : Nat) : TodoRow :=
  { row with status := TodoStatus.as_str st, updated_at := now }

/-- A row with title and description replaced wholesale and updated_at
refreshed, the shape update_content stores. -/
def TodoRow.withContent (row : TodoRow) (title : String) (description : Option String)
    (now : Nat) : TodoRow :=
  { row with title := title, description := description, updated_at := now }


/-- Round trip of the status encoding: from_str inverts as_str. -/
theorem TodoStatus.from_str_as_str (s : TodoStatus) :
    TodoStatus.from_str (TodoStatus.as_str s) = some s := by
  cases s <;> rfl

/-- Replacing the first row matched by a predicate inside a map keeps it
the first match, when the replacement still satisfies the predicate. -/
theorem find_map_if {α : Type} (p : α → Bool) (a a' : α) (l : List α)
    (h : l.find? p = some a) (h' : p a' = true) :
    (l.map (fun x => if p x then a' else x)).find? p = some a' := by
  induction l with
  | nil => simp at h
  | cons x xs ih =>
      by_cases hx : p x = true
      · rw [List.map_cons, if_pos hx, List.find?_cons_of_pos _ h']
      · have hx' : p x = false := by simpa using hx
        rw [List.find?_cons_of_neg _ hx] at h
        rw [List.map_cons, if_neg hx, List.find?_cons_of_neg _ hx]
        exact ih h

/-- C4: for every existing Todo, TodoService::update with a status that
differs from the current status applies only the status change and
returns immediately: the returned (and re-read) record carries the new
status while title and description keep their prior values, whatever
title or description the same call supplied. -/
theorem todo_update_status_precedence
    (db : DB) (id now : Nat) (input : UpdateTodoInput) (row : TodoRow) (st : TodoStatus)
    (h : db.todos.find? (fun r => r.id == id) = some row)
    (hst : input.status = some st)
    (hne : st ≠ (Todo.ofRow row).status) :
    (TodoService.update db id input now).1
        = Except.ok (Todo.ofRow (row.withStatus st now))
      ∧ (Todo.ofRow (row.withStatus st now)).status = st
      ∧ (Todo.ofRow (row.withStatus st now)).title = row.title
      ∧ (Todo.ofRow (row.withStatus st now)).description = row.description
      ∧ TodoRepository.find_by_id (TodoService.update db id input now).2 id
          = some (Todo.ofRow (row.withStatus st now)) := by
  have hfind : TodoRepository.find_by_id db id = some (Todo.ofRow row) := by
    simp [TodoRepository.find_by_id, h]
  have hus : TodoRepository.update_status db id st now
      = (some (Todo.ofRow (row.withStatus st now)),
         { db with todos := db.todos.map (fun r => if r.id == id then row.withStatus st now else r) }) := by
    simp [TodoRepository.update_status, h, TodoRow.withStatus]
  have hupd : TodoService.update db id input now
      = (Except.ok (Todo.ofRow (row.withStatus st now)),
         { db with todos := db.todos.map (fun r => if r.id == id then row.withStatus st now else r) }) := by
    simp [TodoService.update, hfind, hst, hne, hus]
  have hrowp0 := List.find?_some h
  have hrowp : (row.id == id) = true := hrowp0
  refine ⟨by rw [hupd], ?_, rfl, rfl, ?_⟩
  · simp [Todo.ofRow, TodoRow.withStatus, TodoStatus.from_str_as_str]
  · rw [hupd]
    simp only [TodoRepository.find_by_id]
    rw [find_map_if (fun r : TodoRow => r.id == id) row (row.withStatus st now) db.todos h hrowp]
    rfl

/-- Witness for todo_update_status_precedence: a Pending todo updated with
status InProgress and a simultaneous title X keeps title T. -/
theorem todo_update_status_precedence_witness :
    (TodoService.update ⟨[], [⟨1, 1, "T", some "D", "pending", 0, 0⟩], []⟩ 1
        ⟨some "X", none, some TodoStatus.InProgress⟩ 5).1
      = Except.ok (Todo.ofRow (TodoRow.withStatus ⟨1, 1, "T", some "D", "pending", 0, 0⟩
          TodoStatus.InProgress 5)) :=
  (todo_update_status_precedence ⟨[], [⟨1, 1, "T", some "D", "pending", 0, 0⟩], []⟩ 1 5
      ⟨some "X", none, some TodoStatus.InProgress⟩ ⟨1, 1, "T", some "D", "pending", 0, 0⟩
      TodoStatus.InProgress (by decide) (by decide) (by decide)).1

/-- C5: on the content-update branch (status absent or equal to current,
title or description provided) every unspecified field falls back to the
existing value: an omitted title keeps the stored title, an omitted
description keeps the stored description verbatim, and the status is
untouched, both in the returned record and on re-read. -/
theorem todo_update_content_merge
    (db : DB) (id now : Nat) (input : UpdateTodoInput) (row : TodoRow)
    (h : db.todos.find? (fun r => r.id == id) = some row)
    (hstatus : input.status = none ∨ input.status = some (Todo.ofRow row).status)
    (hsome : input.title.isSome = true ∨ input.description.isSome = true) :
    (TodoService.update db id input now).1
        = Except.ok (Todo.ofRow (row.withContent (input.title.getD row.title)
            (orOption input.description row.description) now))
      ∧ (Todo.ofRow (row.withContent (input.title.getD row.title)
            (orOption input.description row.description) now)).title
          = input.title.getD row.title
      ∧ (Todo.ofRow (row.withContent (input.title.getD row.title)
            (orOption input.description row.description) now)).description
          = orOption input.description row.description
      ∧ (Todo.ofRow (row.withContent (input.title.getD row.title)
            (orOption input.description row.description) now)).status
          = (Todo.ofRow row).status
      ∧ (input.description = none →
          orOption input.description row.description = row.description)
      ∧ TodoRepository.find_by_id (TodoService.update db id input now).2 id
          = some (Todo.ofRow (row.withContent (input.title.getD row.title)
              (orOption input.description row.description) now)) := by
  have hfind : TodoRepository.find_by_id db id = some (Todo.ofRow row) := by
    simp [TodoRepository.find_by_id, h]
  have hcond : (input.title.isSome || input.description.isSome) = true := by
    rcases hsome with h1 | h1 <;> simp [h1]
  have huc : TodoRepository.update_content db id (input.title.getD row.title)
      (orOption input.description row.description) now
      = (some (Todo.ofRow (row.withContent (input.title.getD row.title)
          (orOption input.description row.description) now)),
         { db with todos := db.todos.map (fun r => if r.id == id then
             row.withContent (input.title.getD row.title)
               (orOption input.description row.description) now else r) }) := by
    simp [TodoRepository.update_content, h, TodoRow.withContent]
  have hcontent : TodoService.updateContent db id input (Todo.ofRow row) now
      = (Except.ok (Todo.ofRow (row.withContent (input.title.getD row.title)
          (orOption input.description row.description) now)),
         { db with todos := db.todos.map (fun r => if r.id == id then
             row.withContent (input.title.getD row.title)
               (orOption input.description row.description) now else r) }) := by
    simp only [TodoService.updateContent, hcond, if_pos]
    rw [show (Todo.ofRow row).title = row.title from rfl,
        show (Todo.ofRow row).description = row.description from rfl, huc]
  have hupd : TodoService.update db id input now
      = (Except.ok (Todo.ofRow (row.withContent (input.title.getD row.title)
          (orOption input.description row.description) now)),
         { db with todos := db.todos.map (fun r => if r.id == id then
             row.withContent (input.title.getD row.title)
               (orOption input.description row.description) now else r) }) := by
    rcases hstatus with h0 | h0
    · simp [TodoService.update, hfind, h0, hcontent]
    · simp [TodoService.update, hfind, h0, hcontent]
  have hrowp0 := List.find?_some h
  have hrowp : (row.id == id) = true := hrowp0
  refine ⟨by rw [hupd], rfl, rfl, rfl, ?_, ?_⟩
  · intro hd; simp [orOption, hd]
  · rw [hupd]
    simp only [TodoRepository.find_by_id]
    rw [find_map_if (fun r : TodoRow => r.id == id) row
        (row.withContent (input.title.getD row.title)
          (orOption input.description row.description) now) db.todos h hrowp]
    rfl

/-- Witness for todo_update_content_merge: updating only the title keeps
the stored description D verbatim. -/
theorem todo_update_content_merge_witness :
    (TodoService.update ⟨[], [⟨1, 1, "T", some "D", "pending", 0, 0⟩], []⟩ 1
        ⟨some "X", none, none⟩ 5).1
      = Except.ok (Todo.ofRow (TodoRow.withContent ⟨1, 1, "T", some "D", "pending", 0, 0⟩
          "X" (some "D") 5)) :=
  (todo_update_content_merge ⟨[], [⟨1, 1, "T", some "D", "pending", 0, 0⟩], []⟩ 1 5
      ⟨some "X", none, none⟩ ⟨1, 1, "T", some "D", "pending", 0, 0⟩
      (by decide) (Or.inl (by decide)) (Or.inl (by decide))).1

/-- C6: with nothing provided (or only a status equal to the current one)
TodoService::update returns the existing record unchanged and performs no
write: the state is exactly the state before the call. -/
theorem todo_update_noop
    (db : DB) (id now : Nat) (input : UpdateTodoInput) (row : TodoRow)
    (h : db.todos.find? (fun r => r.id == id) = some row)
    (ht : input.title = none) (hd : input.description = none)
    (hstatus : input.status = none ∨ input.status = some (Todo.ofRow row).status) :
    TodoService.update db id input now = (Except.ok (Todo.ofRow row), db) := by
  have hfind : TodoRepository.find_by_id db id = some (Todo.ofRow row) := by
    simp [TodoRepository.find_by_id, h]
  have hcontent : TodoService.updateContent db id input (Todo.ofRow row) now
      = (Except.ok (Todo.ofRow row), db) := by
    simp [TodoService.updateContent, ht, hd]
  rcases hstatus with h0 | h0 <;>
    simp [TodoService.update, hfind, h0, hcontent]

/-- Witness for todo_update_noop: an update carrying only the current
status Pending returns the record with updated_at still 0. -/
theorem todo_update_noop_witness :
    TodoService.update ⟨[], [⟨1, 1, "T", some "D", "pending", 0, 0⟩], []⟩ 1
        ⟨none, none, some TodoStatus.Pending⟩ 5
      = (Except.ok (Todo.ofRow ⟨1, 1, "T", some "D", "pending", 0, 0⟩),
         ⟨[], [⟨1, 1, "T", some "D", "pending", 0, 0⟩], []⟩) :=
  todo_update_noop ⟨[], [⟨1, 1, "T", some "D", "pending", 0, 0⟩], []⟩ 1 5
    ⟨none, none, some TodoStatus.Pending⟩ ⟨1, 1, "T", some "D", "pending", 0, 0⟩
    (by decide) (by decide) (by decide) (Or.inr (by decide))

/-- C7: when the userId resolves to no existing User, TodoService::create
fails with the typed UserNotFound error, distinct from the generic Todo
NotFound, and creates no Todo row (the state is unchanged). -/
theorem todo_create_requires_owner
    (db : DB) (input : CreateTodoInput) (newId now : Nat)
    (h : UserRepository.find_by_id db input.user_id = none) :
    TodoService.create db input newId now
        = (Except.error (TodoFeatureError.UserNotFound input.user_id), db)
      ∧ (∀ j : Nat,
          TodoFeatureError.UserNotFound input.user_id ≠ TodoFeatureError.NotFound j) := by
  exact ⟨by simp [TodoService.create, h], fun j => by simp⟩

/-- Witness for todo_create_requires_owner: creating a todo for user 9 in
an empty database fails with UserNotFound and leaves the state empty. -/
theorem todo_create_requires_owner_witness :
    TodoService.create ⟨[], [], []⟩ ⟨9, "T", none⟩ 1 0
      = (Except.error (TodoFeatureError.UserNotFound 9), ⟨[], [], []⟩) :=
  (todo_create_requires_owner ⟨[], [], []⟩ ⟨9, "T", none⟩ 1 0 (by decide)).1

/-- C8: every Todo returned by a successful TodoRepository::create or
TodoService::create has status Pending, whatever the input fields; no
input can choose another initial status. -/
theorem todo_create_status_pending
    (db : DB) (user_id : Nat) (title : String) (description : Option String)
    (newId now : Nat) :
    ((TodoRepository.create db user_id title description newId now).1).status
        = TodoStatus.Pending
      ∧ (∀ (input : CreateTodoInput) (t : Todo) (db' : DB),
          TodoService.create db input newId now = (Except.ok t, db')
            → t.status = TodoStatus.Pending) := by
  have hrepo : ∀ (u : Nat) (ti : String) (de : Option String),
      ((TodoRepository.create db u ti de newId now).1).status = TodoStatus.Pending := by
    intro u ti de
    simp [TodoRepository.create, Todo.ofRow, TodoStatus.from_str, TodoStatus.as_str]
  refine ⟨hrepo user_id title description, ?_⟩
  intro input t db' heq
  by_cases hc : (UserRepository.find_by_id db input.user_id).isNone
  · simp [TodoService.create, hc] at heq
  · simp [TodoService.create, hc] at heq
    obtain ⟨h1, _⟩ := heq
    rw [← h1]
    exact hrepo input.user_id input.title input.description

/-- Witness for todo_create_status_pending: a create in a database whose
only user has id 1 yields a Pending todo. -/
theorem todo_create_status_pending_witness :
    (⟨2, 1, "T2", none, TodoStatus.Pending, 0, 0⟩ : Todo).status = TodoStatus.Pending :=
  (todo_create_status_pending ⟨[⟨1, "e@x.com", "E", 0, 0⟩], [], []⟩ 1 "T" none 2 0).2
    ⟨1, "T2", none⟩ ⟨2, 1, "T2", none, TodoStatus.Pending, 0, 0⟩
    ⟨[⟨1, "e@x.com", "E", 0, 0⟩], [⟨2, 1, "T2", none, "pending", 0, 0⟩], []⟩ (by decide)

/-- C10: from_str accepts exactly the three storage strings, and the
row-to-entity conversion maps every unrecognized stored status string to
Pending, so decoding a corrupted status never fails. -/
theorem status_decode_total (s : String) (row : TodoRow) :
    ((TodoStatus.from_str s).isSome = true
        ↔ (s = "pending" ∨ s = "in_progress" ∨ s = "completed"))
      ∧ TodoStatus.from_str "pending" = some TodoStatus.Pending
      ∧ TodoStatus.from_str "in_progress" = some TodoStatus.InProgress
      ∧ TodoStatus.from_str "completed" = some TodoStatus.Completed
      ∧ (TodoStatus.from_str row.status = none
          → (Todo.ofRow row).status = TodoStatus.Pending) := by
  refine ⟨?_, by decide, by decide, by decide, ?_⟩
  · unfold TodoStatus.from_str
    split_ifs with h1 h2 h3 <;> simp_all
  · intro h0
    simp [Todo.ofRow, h0]

/-- Witness for status_decode_total: the string garbage decodes to none
and a row stored with it reads back as a Pending todo. -/
theorem status_decode_total_witness :
    (Todo.ofRow ⟨1, 1, "T", none, "garbage", 0, 0⟩).status = TodoStatus.Pending :=
  (status_decode_total "garbage" ⟨1, 1, "T", none, "garbage", 0, 0⟩).2.2.2.2 (by decide)

/-- C9: for an id matching no stored entity, get, update, complete and
start fail with the typed NotFound error while delete returns false
instead of an error; and on any id, delete returns true exactly when a
row with that id was removed. -/
theorem missing_id_not_found
    (db : DB) (uid tid : Nat)
    (hu : UserRepository.find_by_id db uid = none)
    (ht : TodoRepository.find_by_id db tid = none) :
    UserService.get db uid = Except.error (UserFeatureError.NotFound uid)
      ∧ (∀ (input : UpdateUserInput) (now : Nat),
          UserService.update db uid input now
            = (Except.error (UserFeatureError.NotFound uid), db))
      ∧ UserService.delete db uid = (false, db)
      ∧ TodoService.get db tid = Except.error (TodoFeatureError.NotFound tid)
      ∧ (∀ (input : UpdateTodoInput) (now : Nat),
          TodoService.update db tid input now
            = (Except.error (TodoFeatureError.NotFound tid), db))
      ∧ (∀ now : Nat, TodoService.complete db tid now
            = (Except.error (TodoFeatureError.NotFound tid), db))
      ∧ (∀ now : Nat, TodoService.start db tid now
            = (Except.error (TodoFeatureError.NotFound tid), db))
      ∧ TodoService.delete db tid = (false, db)
      ∧ (∀ i : Nat, ((UserService.delete db i).1 = true ↔ ∃ u ∈ db.users, u.id = i))
      ∧ (∀ i : Nat, ((TodoService.delete db i).1 = true ↔ ∃ r ∈ db.todos, r.id = i)) := by
  have hu2 : db.users.find? (fun u => u.id == uid) = none := hu
  have ht2 : db.todos.find? (fun r => r.id == tid) = none := by
    have hmap : (db.todos.find? (fun r => r.id == tid)).map Todo.ofRow = none := ht
    exact Option.map_eq_none'.mp hmap
  have hu3 : ∀ u ∈ db.users, ¬(u.id == uid) = true := List.find?_eq_none.mp hu2
  have ht3 : ∀ r ∈ db.todos, ¬(r.id == tid) = true := List.find?_eq_none.mp ht2
  have huany : db.users.any (fun u => u.id == uid) = false := List.any_eq_false.mpr hu3
  have htany : db.todos.any (fun r => r.id == tid) = false := List.any_eq_false.mpr ht3
  have hufilter : db.users.filter (fun u => u.id != uid) = db.users :=
    List.filter_eq_self.mpr (fun u hmem => by simpa using hu3 u hmem)
  have htfilter : db.todos.filter (fun r => r.id != tid) = db.todos :=
    List.filter_eq_self.mpr (fun r hmem => by simpa using ht3 r hmem)
  refine ⟨by simp [UserService.get, hu], ?_, ?_, by simp [TodoService.get, TodoRepository.find_by_id, ht2],
      ?_, ?_, ?_, ?_, ?_, ?_⟩
  · intro input now
    cases hinput : input.name with
    | none => simp [UserService.update, hinput, UserService.get, hu]
    | some n => simp [UserService.update, hinput, UserRepository.update_name, hu2]
  · simp [UserService.delete, UserRepository.delete, huany, hufilter]
  · intro input now
    simp [TodoService.update, TodoRepository.find_by_id, ht2]
  · intro now
    simp [TodoService.complete, TodoRepository.update_status, ht2]
  · intro now
    simp [TodoService.start, TodoRepository.update_status, ht2]
  · simp [TodoService.delete, TodoRepository.delete, htany, htfilter]
  · intro i
    simp [UserService.delete, UserRepository.delete, List.any_eq_true]
  · intro i
    simp [TodoService.delete, TodoRepository.delete, List.any_eq_true]

/-- Witness for missing_id_not_found: id 9 in a database holding user 1
and todo 2 makes UserService::get fail with NotFound 9. -/
theorem missing_id_not_found_witness :
    UserService.get ⟨[⟨1, "e@x.com", "E", 0, 0⟩], [⟨2, 1, "T", none, "pending", 0, 0⟩], []⟩ 9
      = Except.error (UserFeatureError.NotFound 9) :=
  (missing_id_not_found ⟨[⟨1, "e@x.com", "E", 0, 0⟩], [⟨2, 1, "T", none, "pending", 0, 0⟩], []⟩
      9 9 (by decide) (by decide)).1

/-- C1: registration is all-or-nothing. When the pre-check passes and the
welcome id is fresh: a forced enqueue failure rolls everything back (the
state is exactly the pre-call state, so no user row with that email and
no welcome job exist); an insert lost to a raced duplicate rolls back to
the pre-transaction state with the job table untouched; and a successful
register leaves the new user row findable by email together with exactly
one enqueued job carrying the new id, email and name. -/
theorem register_all_or_nothing
    (db : DB) (input : CreateUserInput) (newId now : Nat)
    (hpre : UserRepository.find_by_email db input.email = none)
    (hfresh : ∀ j ∈ db.jobs, j.user_id ≠ newId) :
    UserService.register db none input newId now false
        = (Except.error (UserFeatureError.Queue queueFailureMsg), db)
      ∧ (∀ u : User, u.email = input.email →
          UserService.register db (some u) input newId now true
              = (Except.error (UserFeatureError.Domain uniqueViolation), commitRaced db (some u))
            ∧ (commitRaced db (some u)).jobs = db.jobs)
      ∧ UserService.register db none input newId now true
          = (Except.ok ⟨newId, input.email, input.name, now, now⟩,
             { db with
               users := ⟨newId, input.email, input.name, now, now⟩ :: db.users,
               jobs := ⟨"emails", newId, input.email, input.name⟩ :: db.jobs })
      ∧ (UserService.register db none input newId now true).2.jobs.countP
            (fun j => j.user_id == newId && j.email == input.email && j.name == input.name) = 1
      ∧ UserRepository.find_by_email (UserService.register db none input newId now true).2 input.email
          = some ⟨newId, input.email, input.name, now, now⟩ := by
  have hpre2 : db.users.find? (fun u => u.email == input.email) = none := hpre
  have hnone : ∀ u ∈ db.users, ¬(u.email == input.email) = true := List.find?_eq_none.mp hpre2
  have hany : db.users.any (fun u => u.email == input.email) = false := List.any_eq_false.mpr hnone
  have hok : UserService.register db none input newId now true
      = (Except.ok ⟨newId, input.email, input.name, now, now⟩,
         { db with
           users := ⟨newId, input.email, input.name, now, now⟩ :: db.users,
           jobs := ⟨"emails", newId, input.email, input.name⟩ :: db.jobs }) := by
    simp [UserService.register, hpre, commitRaced, UserRepository.create, hany,
      UserJobs.enqueue_welcome_email]
  refine ⟨?_, ?_, hok, ?_, ?_⟩
  · simp [UserService.register, hpre, commitRaced, UserRepository.create, hany]
  · intro u hu
    have hany2 : (u :: db.users).any (fun v => v.email == input.email) = true := by
      simp [List.any_cons, hu]
    constructor
    · simp [UserService.register, hpre, commitRaced, UserRepository.create, hany2]
    · simp [commitRaced]
  · rw [hok]
    have hzero : db.jobs.countP
        (fun j => j.user_id == newId && j.email == input.email && j.name == input.name) = 0 :=
      List.countP_eq_zero.mpr (fun j hj => by simp [hfresh j hj])
    simp [List.countP_cons, hzero]
  · rw [hok]
    simp [UserRepository.find_by_email, List.find?_cons_of_pos]

/-- Witness for register_all_or_nothing: in the empty database a
registration whose enqueue fails leaves the database empty. -/
theorem register_all_or_nothing_witness :
    UserService.register ⟨[], [], []⟩ none ⟨"a@x.com", "A"⟩ 1 0 false
      = (Except.error (UserFeatureError.Queue queueFailureMsg), ⟨[], [], []⟩) :=
  (register_all_or_nothing ⟨[], [], []⟩ ⟨"a@x.com", "A"⟩ 1 0 (by decide) (by simp)).1

/-- C2: when the email is already bound to exactly one existing user,
register fails with the typed EmailExists error, writes nothing, and
exactly one user record with that email exists afterwards. -/
theorem register_duplicate_email
    (db : DB) (input : CreateUserInput) (newId now : Nat) (enqueueOk : Bool)
    (hone : db.users.countP (fun u => u.email == input.email) = 1) :
    UserService.register db none input newId now enqueueOk
        = (Except.error (UserFeatureError.EmailExists input.email), db)
      ∧ (UserService.register db none input newId now enqueueOk).2.users.countP
          (fun u => u.email == input.email) = 1 := by
  have hex : ∃ u ∈ db.users, (u.email == input.email) = true := by
    have : 0 < db.users.countP (fun u => u.email == input.email) := by omega
    exact List.countP_pos_iff.mp this
  have hsome : (db.users.find? (fun u => u.email == input.email)).isSome = true :=
    List.find?_isSome.mpr hex
  have hreg : UserService.register db none input newId now enqueueOk
      = (Except.error (UserFeatureError.EmailExists input.email), db) := by
    simp [UserService.register, UserRepository.find_by_email, hsome, commitRaced]
  exact ⟨hreg, by rw [hreg]; exact hone⟩

/-- Witness for register_duplicate_email: a second registration with the
already-bound email fails with EmailExists and the state is unchanged. -/
theorem register_duplicate_email_witness :
    UserService.register ⟨[⟨1, "a@x.com", "A", 0, 0⟩], [], []⟩ none ⟨"a@x.com", "B"⟩ 2 1 true
      = (Except.error (UserFeatureError.EmailExists "a@x.com"),
         ⟨[⟨1, "a@x.com", "A", 0, 0⟩], [], []⟩) :=
  (register_duplicate_email ⟨[⟨1, "a@x.com", "A", 0, 0⟩], [], []⟩ ⟨"a@x.com", "B"⟩ 2 1 true
      (by decide)).1

/-- C3 counterexample: the pre-check passes (empty database), a raced
duplicate wins between pre-check and insert, and register returns the
Domain storage error, not EmailExists. -/
theorem register_race_counterexample :
    (UserService.register ⟨[], [], []⟩ (some ⟨7, "a@x.com", "B", 0, 0⟩)
        ⟨"a@x.com", "A"⟩ 1 1 true).1
      = Except.error (UserFeatureError.Domain uniqueViolation)
    ∧ (UserService.register ⟨[], [], []⟩ (some ⟨7, "a@x.com", "B", 0, 0⟩)
        ⟨"a@x.com", "A"⟩ 1 1 true).1
      ≠ Except.error (UserFeatureError.EmailExists "a@x.com") := by
  decide

/-- C3 amended: when the pre-check passes but the insert loses a
duplicate-registration race, register propagates the storage uniqueness
violation wrapped as the Domain error kind and rolls back; it does not
normalize the failure to EmailExists. -/
theorem register_race_returns_storage_error
    (db : DB) (input : CreateUserInput) (u : User) (newId now : Nat) (enqueueOk : Bool)
    (hpre : UserRepository.find_by_email db input.email = none)
    (hu : u.email = input.email) :
    UserService.register db (some u) input newId now enqueueOk
        = (Except.error (UserFeatureError.Domain uniqueViolation), commitRaced db (some u))
      ∧ (UserService.register db (some u) input newId now enqueueOk).1
          ≠ Except.error (UserFeatureError.EmailExists input.email) := by
  have hany2 : (u :: db.users).any (fun v => v.email == input.email) = true := by
    simp [List.any_cons, hu]
  have hreg : UserService.register db (some u) input newId now enqueueOk
      = (Except.error (UserFeatureError.Domain uniqueViolation), commitRaced db (some u)) := by
    simp [UserService.register, hpre, commitRaced, UserRepository.create, hany2]
  exact ⟨hreg, by rw [hreg]; simp⟩

/-- Witness for register_race_returns_storage_error at a concrete raced
duplicate in the empty database. -/
theorem register_race_returns_storage_error_witness :
    UserService.register ⟨[], [], []⟩ (some ⟨7, "b@x.com", "B", 0, 0⟩) ⟨"b@x.com", "A"⟩ 2 3 true
      = (Except.error (UserFeatureError.Domain uniqueViolation),
         commitRaced ⟨[], [], []⟩ (some ⟨7, "b@x.com", "B", 0, 0⟩)) :=
  (register_race_returns_storage_error ⟨[], [], []⟩ ⟨"b@x.com", "A"⟩ ⟨7, "b@x.com", "B", 0, 0⟩
      2 3 true (by decide) (by decide)).1
